import Mathlib

/-!
Verification of the trade decision engine of the solana-ai-trading-bot
repository against its natural-language specification.

The development shallowly embeds the Python code of
`backend/trading/decision_module.py`, `backend/ai_analysis/ai_auto_optimizer.py`
and `backend/trading/new_pair_scanner.py` as executable Lean functions over ℚ
(Python floats are modelled as rationals; every comparison in the studied code
is an order comparison, so the embedding is faithful up to floating-point
rounding, which no studied claim depends on).  Network calls and randomness are
passed in as explicit oracle values.  Exceptions are modelled by explicit
outcome constructors: the Python code catches every exception at the border of
each operation, so a caught exception is an ordinary return value of the step
function, with exactly the state mutations that had already happened.
-/

namespace SolanaBot

/-- One line of a trade journal as written by `DecisionModule.log_trade`:
token, price and action ("buy" or "sell").  Timestamps are omitted: no studied
branch reads a timestamp back from the journal. -/
structure TradeEntry where
  token : String
  price : ℚ
  action : String
  deriving DecidableEq, Repr

/-- A held position, one value of the `DecisionModule.held_tokens` dict.
`maxPrice` models the `max_price` key, which is absent when the position is
created and is materialized lazily by `evaluate_held_tokens_for_sale`
(lines 443 to 444 of decision_module.py); `none` models the absent key. -/
structure Position where
  buyPrice : ℚ
  buyAmount : ℚ
  creatorWallets : List String
  buyTimestamp : ℚ
  maxPrice : Option ℚ
  deriving DecidableEq, Repr

/-- The effective running maximum used by the trailing-stop rule: the stored
`max_price` when present, else the buy price it would be initialized to. -/
def Position.maxSeen (p : Position) : ℚ := p.maxPrice.getD p.buyPrice

/-- Association-list lookup with Python dict semantics (first binding wins;
the operations below keep keys unique). -/
def alist_lookup {α : Type} : List (String × α) → String → Option α
  | [], _ => none
  | (k, v) :: rest, key => if k = key then some v else alist_lookup rest key

/-- Removal of a key, modelling Python `del d[k]`. -/
def alist_erase {α : Type} : List (String × α) → String → List (String × α)
  | [], _ => []
  | (k, v) :: rest, key =>
    if k = key then alist_erase rest key else (k, v) :: alist_erase rest key

/-- Update or insert, modelling Python `d[k] = v`. -/
def alist_set {α : Type} : List (String × α) → String → α → List (String × α)
  | [], key, v => [(key, v)]
  | (k, w) :: rest, key, v =>
    if k = key then (k, v) :: rest else (k, w) :: alist_set rest key v

/-- The mutable state of a `DecisionModule` instance, restricted to the fields
the studied operations read or write.  `creatorCache` stands for the
`successful_creator_cache` attribute: the source never initializes it in
`__init__` (nor anywhere else in the repository), so in the source every
access to it raises `AttributeError`; the model keeps it as a field in order
to prove that no reachable branch ever touches it. -/
structure Engine where
  buyAmountSol : ℚ
  sellMultiplier : ℚ
  trailingStopPercent : ℚ
  simulationMode : Bool
  heldTokens : List (String × Position)
  simulationResults : List TradeEntry
  realTrades : List TradeEntry
  creatorCache : List String
  capital : ℚ
  availableCapital : ℚ
  deriving DecidableEq, Repr

/-- `DecisionModule.set_initial_capital`: sets both `capital` and
`available_capital` to the configured amount. -/
def set_initial_capital (eng : Engine) (amount : ℚ) : Engine :=
  { eng with capital := amount, availableCapital := amount }

/-- `DecisionModule.set_param` (lines 40 to 49): `hasattr`-guarded `setattr`
with no range validation of any kind.  The model is restricted to the three
numeric engine parameters; any other key leaves the state unchanged, as the
source does for unknown attribute names. -/
def set_param (eng : Engine) (key : String) (value : ℚ) : Engine :=
  if key = "buy_amount_sol" then { eng with buyAmountSol := value }
  else if key = "sell_multiplier" then { eng with sellMultiplier := value }
  else if key = "trailing_stop_percent" then { eng with trailingStopPercent := value }
  else eng

/-- The JSON body returned by the safety oracle (honeypot.is), restricted to
the keys `_check_token_honeypot_and_taxes` reads.  `marketcap` and
`marketCapAlt` model the two alternative spellings probed by the source. -/
structure OracleData where
  honeypotResult : Bool
  isHoneypot : Bool
  taxes : List (String × ℚ)
  marketcap : Option ℚ
  marketCapAlt : Option ℚ
  antiBot : Bool
  antiBotDetected : Bool
  deriving DecidableEq, Repr

/-- Outcome of the HTTP call to the safety oracle: a transport error or
malformed body (any raised exception), or a response with an HTTP status. -/
inductive OracleResp
  | err
  | ok (status : Nat) (data : OracleData)
  deriving DecidableEq, Repr

/-- The dict built by `_check_token_honeypot_and_taxes` (line 294). -/
structure HoneypotInfo where
  is_honeypot : Bool
  taxes : List (String × ℚ)
  marketcap : ℚ
  antiBot : Bool
  deriving DecidableEq, Repr

/-- The value `result` is initialized to at line 294 and returned unchanged on
any exception or non-200 status. -/
def default_honeypot_info : HoneypotInfo :=
  { is_honeypot := false, taxes := [], marketcap := 0, antiBot := false }

/-- Python `taxes.get(key, 0)`. -/
def tax_get (taxes : List (String × ℚ)) (key : String) : ℚ :=
  (alist_lookup taxes key).getD 0

/-- `DecisionModule._check_token_honeypot_and_taxes` (lines 283 to 324) as a
function of the oracle response.  The 300 s result cache is not modelled: it
returns a previously computed value of this same function and no studied claim
depends on its TTL. -/
def check_token_honeypot_and_taxes : OracleResp → HoneypotInfo
  | .err => default_honeypot_info
  | .ok status data =>
    if status = 200 then
      { is_honeypot := data.honeypotResult || data.isHoneypot
        taxes := data.taxes
        marketcap :=
          match data.marketcap with
          | some m => m
          | none => data.marketCapAlt.getD 0
        antiBot := data.antiBot || data.antiBotDetected }
    else default_honeypot_info

/-- Outcome of one HTTP quote call to Jupiter: a raised exception (or a falsy
body), or a body whose `outAmount` field is the given string (the `"0"`
default of `data.get` is folded in by the caller of the oracle). -/
inductive QuoteResp
  | err
  | ok (out_amount : String)
  deriving DecidableEq, Repr

/-- `DecisionModule._check_token_liquidity` (lines 326 to 350): passes iff the
quote parses to a positive integer; any exception yields `false`. -/
def check_token_liquidity : QuoteResp → Bool
  | .err => false
  | .ok s =>
    match s.toInt? with
    | some n => decide (0 < n)
    | none => false

/-- `DecisionModule._check_token_sellable` (lines 352 to 378): passes iff the
`outAmount` string differs from "0"; any exception yields `false`. -/
def check_token_sellable : QuoteResp → Bool
  | .err => false
  | .ok s => s ≠ "0"

/-- The environment of one `process_new_token_candidate` call: results of the
network probes, wallet status, clock and executor outcome. -/
structure BuyOracles where
  explorationPhase : Bool
  creators : List String
  honeypotResp : OracleResp
  liquidityResp : QuoteResp
  sellableResp : QuoteResp
  balanceOk : Bool
  solBalance : ℚ
  buySuccess : Bool
  now : ℚ
  deriving DecidableEq, Repr

/-- How one `process_new_token_candidate` call ended. -/
inductive BuyOutcome
  | simBought
  | rejectedUntrusted
  | attrErrorCaught
  | rejectedBalance
  | rejectedCapital
  | rejectedHeld
  | rejectedHoneypot
  | rejectedTaxes
  | rejectedMarketcap
  | rejectedAntiBot
  | rejectedLiquidity
  | rejectedSellable
  | bought
  | buyFailed
  deriving DecidableEq, Repr

/-- `DecisionModule.process_new_token_candidate` (lines 128 to 282).
In simulation mode the token is bought unconditionally: a BUY journal line is
appended and a position without a `max_price` key and with empty
`creator_wallets` is stored.  In real mode, outside the exploration phase the
trusted-creator test `any(creator in self.successful_creator_cache ...)`
raises `AttributeError` on the first creator (the attribute is never
initialized); with no creators the empty generator short-circuits to an
untrusted rejection.  In the exploration phase the admission filters run in
source order, and a successful buy stores the position and appends a BUY
journal line.  `available_capital` is read at line 208 but never written.
This helper is the state update of the simulated buy (lines 137 to 161). -/
def sim_buy_engine (eng : Engine) (token : String) (price : ℚ) (now : ℚ) : Engine :=
  { eng with
      simulationResults := eng.simulationResults ++ [⟨token, price, "buy"⟩],
      heldTokens := alist_set eng.heldTokens token
        { buyPrice := price, buyAmount := eng.buyAmountSol,
          creatorWallets := [], buyTimestamp := now, maxPrice := none } }

/-- The state update of a successful real-mode exploration buy (lines 253 to
270): store the position (without a `max_price` key) and journal the BUY. -/
def real_buy_engine (eng : Engine) (token : String) (price : ℚ)
    (creators : List String) (now : ℚ) : Engine :=
  { eng with
      heldTokens := alist_set eng.heldTokens token
        { buyPrice := price, buyAmount := eng.buyAmountSol,
          creatorWallets := creators, buyTimestamp := now, maxPrice := none },
      realTrades := eng.realTrades ++ [⟨token, price, "buy"⟩] }

/-- The decision ladder of `process_new_token_candidate` (lines 128 to 282),
in source order, as a pure function of the engine state and the probe
results: which outcome the call reaches. -/
def buy_decision (eng : Engine) (token : String) (orc : BuyOracles) : BuyOutcome :=
  if eng.simulationMode then .simBought
  else if ¬ orc.explorationPhase then
    if orc.creators = [] then .rejectedUntrusted else .attrErrorCaught
  else if orc.balanceOk = false ∨ orc.solBalance < eng.buyAmountSol + 1/1000 then
    .rejectedBalance
  else if eng.availableCapital < eng.buyAmountSol then .rejectedCapital
  else if (alist_lookup eng.heldTokens token).isSome then .rejectedHeld
  else if (check_token_honeypot_and_taxes orc.honeypotResp).is_honeypot then
    .rejectedHoneypot
  else if (check_token_honeypot_and_taxes orc.honeypotResp).taxes ≠ [] ∧
      (tax_get (check_token_honeypot_and_taxes orc.honeypotResp).taxes "buy" > 3/20 ∨
        tax_get (check_token_honeypot_and_taxes orc.honeypotResp).taxes "sell" > 3/20) then
    .rejectedTaxes
  else if (check_token_honeypot_and_taxes orc.honeypotResp).marketcap ≠ 0 ∧
      (check_token_honeypot_and_taxes orc.honeypotResp).marketcap > 50000 then
    .rejectedMarketcap
  else if (check_token_honeypot_and_taxes orc.honeypotResp).antiBot then
    .rejectedAntiBot
  else if check_token_liquidity orc.liquidityResp = false then .rejectedLiquidity
  else if check_token_sellable orc.sellableResp = false then .rejectedSellable
  else if orc.buySuccess then .bought
  else .buyFailed

/-- `DecisionModule.process_new_token_candidate`: the decision ladder above
together with its state effect.  Only the simulated buy and the successful
real buy mutate the engine; every rejection and every caught exception leaves
it untouched. -/
def process_new_token_candidate (eng : Engine) (token : String) (price : ℚ)
    (orc : BuyOracles) : Engine × BuyOutcome :=
  match buy_decision eng token orc with
  | .simBought => (sim_buy_engine eng token price orc.now, .simBought)
  | .bought => (real_buy_engine eng token price orc.creators orc.now, .bought)
  | o => (eng, o)

/-- The environment of one `evaluate_held_tokens_for_sale` call: the
`whale_selling` argument, the result of the `_creator_wallet_selling` probe,
the executor outcome of a real-mode sell (`none` is a failed sell, `some p`
a successful sell realizing price `p`) and the clock. -/
structure EvalOracles where
  whale : Bool
  creatorSells : Bool
  sellResult : Option ℚ
  now : ℚ
  deriving DecidableEq, Repr

/-- What happened after the take-profit branch of the evaluator fired.
`simKeyError` is the simulated path: `_execute_sale` has already deleted the
position, so the creator-cache block at line 423 raises `KeyError`, caught at
line 469.  `simAttrError` and `simReturn` model the creator-cache block as
written, for completeness: they are unreachable because the position is gone. -/
inductive TPFollow
  | realReturn
  | simKeyError
  | simAttrError
  | simReturn
  deriving DecidableEq, Repr

/-- How one `evaluate_held_tokens_for_sale` call ended.  The `Caught`
constructors are exceptions swallowed by the handler at line 469. -/
inductive EvalOutcome
  | notHeld
  | zeroDivCaught
  | tookProfit (f : TPFollow)
  | trailingStopped
  | dumpSold
  | held
  deriving DecidableEq, Repr

/-- `DecisionModule._execute_sale` (lines 526 to 584).  In simulation mode the
sale is journaled at the synthetic price `buy_price * sell_multiplier` and the
position is deleted.  In real mode a successful executor sell journals the
realized price and deletes the position; a failure (or a missing position,
whose `KeyError` the local handler turns into `None`) leaves the state
untouched. -/
def execute_sale (eng : Engine) (token : String) (sellResult : Option ℚ) :
    Engine × Option ℚ :=
  match alist_lookup eng.heldTokens token with
  | none => (eng, none)
  | some pos =>
    if eng.simulationMode then
      ({ eng with
          simulationResults := eng.simulationResults ++
            [⟨token, pos.buyPrice * eng.sellMultiplier, "sell"⟩],
          heldTokens := alist_erase eng.heldTokens token },
        some (pos.buyPrice * eng.sellMultiplier))
    else
      match sellResult with
      | some sp =>
        ({ eng with
            realTrades := eng.realTrades ++ [⟨token, sp, "sell"⟩],
            heldTokens := alist_erase eng.heldTokens token }, some sp)
      | none => (eng, none)

/-- The `max_price` bookkeeping of lines 443 to 447: materialize the key at
the buy price if absent, then raise it to the observed price if higher. -/
def update_max (pos : Position) (price : ℚ) : Position :=
  if pos.maxPrice.getD pos.buyPrice < price then { pos with maxPrice := some price }
  else { pos with maxPrice := some (pos.maxPrice.getD pos.buyPrice) }

/-- `DecisionModule.evaluate_held_tokens_for_sale` (lines 403 to 470).
A missing position is a no-op; a zero buy price raises `ZeroDivisionError` at
line 410, caught at line 469 with no state change.  Otherwise take-profit is
checked first; on the simulated path the creator-cache block then reads the
just deleted position and dies with `KeyError`.  Failing take-profit, the
`max_price` update runs, then the trailing stop, then the dump signal.
This helper is the in-place `max_price` mutation of lines 443 to 447. -/
def with_updated_max (eng : Engine) (token : String) (pos : Position)
    (price : ℚ) : Engine :=
  { eng with heldTokens := alist_set eng.heldTokens token (update_max pos price) }

/-- `DecisionModule.evaluate_held_tokens_for_sale` (continued; see above). -/
def evaluate_held_tokens_for_sale (eng : Engine) (token : String) (price : ℚ)
    (orc : EvalOracles) : Engine × EvalOutcome :=
  match alist_lookup eng.heldTokens token with
  | none => (eng, .notHeld)
  | some pos =>
    if pos.buyPrice = 0 then (eng, .zeroDivCaught)
    else if eng.sellMultiplier ≤ price / pos.buyPrice then
      if eng.simulationMode then
        match alist_lookup (execute_sale eng token orc.sellResult).1.heldTokens token with
        | none => ((execute_sale eng token orc.sellResult).1, .tookProfit .simKeyError)
        | some pos2 =>
          if orc.now - pos2.buyTimestamp < 3600 then
            if pos2.creatorWallets = [] then
              ((execute_sale eng token orc.sellResult).1, .tookProfit .simReturn)
            else ((execute_sale eng token orc.sellResult).1, .tookProfit .simAttrError)
          else ((execute_sale eng token orc.sellResult).1, .tookProfit .simReturn)
      else ((execute_sale eng token orc.sellResult).1, .tookProfit .realReturn)
    else if price < (update_max pos price).maxSeen * (1 - eng.trailingStopPercent) then
      ((execute_sale (with_updated_max eng token pos price) token orc.sellResult).1,
        .trailingStopped)
    else if orc.whale || orc.creatorSells then
      ((execute_sale (with_updated_max eng token pos price) token orc.sellResult).1,
        .dumpSold)
    else (with_updated_max eng token pos price, .held)

/-- Iterated exit evaluation of one token over a sequence of observed prices
with their environments. -/
def run_sell_evals (eng : Engine) (token : String) :
    List (ℚ × EvalOracles) → Engine
  | [] => eng
  | (p, orc) :: rest =>
    run_sell_evals (evaluate_held_tokens_for_sale eng token p orc).1 token rest

/-- The positions a token holds after each successive exit evaluation, cut off
at the evaluation that removes the position. -/
def held_trace (eng : Engine) (token : String) :
    List (ℚ × EvalOracles) → List Position
  | [] => []
  | (p, orc) :: rest =>
    let eng1 := (evaluate_held_tokens_for_sale eng token p orc).1
    match alist_lookup eng1.heldTokens token with
    | some pos => pos :: held_trace eng1 token rest
    | none => []

/-- The mutable state of an `AIAutoOptimizer` instance, restricted to the
fields `analyze_and_adjust` reads or writes.  `best_profit = none` models the
initial `float(-inf)`.  `param_history`, `hall_of_fame` and the volatility
statistic are omitted: they are only logged or served to the UI and no branch
condition reads them. -/
structure OptState where
  freeze : Bool
  best_params : Option (ℚ × ℚ)
  best_profit : Option ℚ
  rollback_count : Nat
  loss_streak : Nat
  win_streak : Nat
  last_profit : ℚ
  max_drawdown : ℚ
  current_profile : Nat
  deriving DecidableEq, Repr

/-- The random draws consumed by one optimizer tick: `rotate` is
`random.random() < 0.15`, `explore` is `random.random() < 0.1` and
`uniformFactor` is `random.uniform(0.95, 1.05)`. -/
structure Draws where
  rotate : Bool
  explore : Bool
  uniformFactor : ℚ
  deriving DecidableEq, Repr

/-- Which parameter mutations one optimizer tick applied. -/
structure TickFlags where
  rotApplied : Bool
  ddApplied : Bool
  wrDownApplied : Bool
  wrUpApplied : Bool
  exploreApplied : Bool
  rollbackApplied : Bool
  recoveryApplied : Bool
  deriving DecidableEq, Repr

/-- The `strategy_profiles` table (lines 43 to 47): buy factor and sell
increment of the conservative, aggressive and balanced profiles. -/
def strategy_profiles : List (ℚ × ℚ) := [(4/5, 1/10), (6/5, -(1/20)), (1, 0)]

/-- `AIAutoOptimizer._compute_profit`: running sum over SELL lines of
`price - buy_price`, with `buy_prices` an insert-only dict keyed by token. -/
def compute_profit_aux : List TradeEntry → List (String × ℚ) → ℚ
  | [], _ => 0
  | e :: rest, bp =>
    if e.action = "buy" then compute_profit_aux rest (alist_set bp e.token e.price)
    else if e.action = "sell" then
      match alist_lookup bp e.token with
      | some b => (e.price - b) + compute_profit_aux rest bp
      | none => compute_profit_aux rest bp
    else compute_profit_aux rest bp

/-- Cumulative simulated profit of a journal (lines 326 to 334). -/
def compute_profit (trades : List TradeEntry) : ℚ := compute_profit_aux trades []

/-- The fold inside `AIAutoOptimizer._compute_stats`: win count, loss count
and the list of per-trade profits (a zero profit counts as a loss, as in the
source `else` branch). -/
def stats_aux : List TradeEntry → List (String × ℚ) → Nat × Nat × List ℚ
  | [], _ => (0, 0, [])
  | e :: rest, bp =>
    if e.action = "buy" then stats_aux rest (alist_set bp e.token e.price)
    else if e.action = "sell" then
      match alist_lookup bp e.token with
      | some b =>
        let pr := e.price - b
        let r := stats_aux rest bp
        (if 0 < pr then r.1 + 1 else r.1, if 0 < pr then r.2.1 else r.2.1 + 1, pr :: r.2.2)
      | none => stats_aux rest bp
    else stats_aux rest bp

/-- Winrate of a journal (lines 275 to 295): wins over completed trades, 0
when no trade completed. -/
def compute_winrate (trades : List TradeEntry) : ℚ :=
  let r := stats_aux trades []
  if 0 < r.1 + r.2.1 then (r.1 : ℚ) / ((r.1 : ℚ) + (r.2.1 : ℚ)) else 0

/-- Mean per-trade profit of a journal, 0 when no trade completed. -/
def compute_avg_profit (trades : List TradeEntry) : ℚ :=
  let r := stats_aux trades []
  if r.2.2 = [] then 0 else r.2.2.sum / (r.2.2.length : ℚ)

/-- The fold inside `AIAutoOptimizer._compute_drawdown` (lines 297 to 311):
equity, running peak and running maximum relative dip. -/
def drawdown_aux : List TradeEntry → List (String × ℚ) → ℚ → ℚ → ℚ → ℚ
  | [], _, _, _, maxdd => maxdd
  | e :: rest, bp, equity, peak, maxdd =>
    if e.action = "buy" then
      drawdown_aux rest (alist_set bp e.token e.price) equity peak maxdd
    else if e.action = "sell" then
      match alist_lookup bp e.token with
      | some b =>
        let eq2 := equity + (e.price - b)
        let pk2 := max peak eq2
        let dd := if 0 < pk2 then (pk2 - eq2) / pk2 else 0
        drawdown_aux rest bp eq2 pk2 (max maxdd dd)
      | none => drawdown_aux rest bp equity peak maxdd
    else drawdown_aux rest bp equity peak maxdd

/-- Maximum drawdown of a journal. -/
def compute_drawdown (trades : List TradeEntry) : ℚ :=
  drawdown_aux trades [] 0 0 0

/-- Python comparison `best_profit < x` against a possibly `-inf` (`none`)
best profit. -/
def best_profit_lt (bp : Option ℚ) (x : ℚ) : Bool :=
  match bp with
  | none => true
  | some b => decide (b < x)

/-- Python comparison `x < best_profit * 0.8` against a possibly `-inf`
(`none`) best profit: false when best is `-inf`. -/
def below_scaled_best (bp : Option ℚ) (x : ℚ) : Bool :=
  match bp with
  | none => false
  | some b => decide (x < b * (4/5))

/-- The full context threaded through one optimizer tick: optimizer state,
the engine parameters being mutated, the flags recording which mutations
fired, the journal aggregates of this tick and the random draws. -/
structure TickCtx where
  st : OptState
  buy : ℚ
  sell : ℚ
  flags : TickFlags
  simProfit : ℚ
  wr : ℚ
  avg : ℚ
  dd : ℚ
  draws : Draws
  deriving DecidableEq, Repr

/-- No mutation fired yet. -/
def no_flags : TickFlags := ⟨false, false, false, false, false, false, false⟩

/-- Lines 115 to 120: compute the journal aggregates and raise the running
maximum drawdown. -/
def tick_init (st : OptState) (buy sell : ℚ) (trades : List TradeEntry)
    (d : Draws) : TickCtx :=
  { st := { st with max_drawdown := max st.max_drawdown (compute_drawdown trades) }
    buy := buy, sell := sell, flags := no_flags
    simProfit := compute_profit trades, wr := compute_winrate trades
    avg := compute_avg_profit trades, dd := compute_drawdown trades, draws := d }

/-- Lines 123 to 135: memorize the best parameters when profit improved. -/
def tick_best (c : TickCtx) : TickCtx :=
  if best_profit_lt c.st.best_profit c.simProfit then
    { c with st :=
        { c.st with best_profit := some c.simProfit, best_params := some (c.buy, c.sell) } }
  else c

/-- Lines 148 to 150: the freeze-entering transition. -/
def tick_freeze_on (c : TickCtx) : TickCtx :=
  if c.st.freeze = false ∧ c.wr > 7/10 ∧ c.dd < 1/10 ∧ c.simProfit > 1/2 then
    { c with st := { c.st with freeze := true } }
  else c

/-- Lines 151 to 153: the freeze-leaving transition, run right after the
freeze-entering one as in the source. -/
def tick_freeze_off (c : TickCtx) : TickCtx :=
  if c.st.freeze = true ∧
      (c.wr < 3/5 ∨ c.dd > 3/20 ∨ below_scaled_best c.st.best_profit c.simProfit = true) then
    { c with st := { c.st with freeze := false } }
  else c

/-- Lines 155 to 170: strategy-profile rotation, guarded by the freeze flag
and the 0.15 coin flip.  An independent `if`, not part of the risk chain
below: advance the profile index cyclically, rescale the buy amount with a
0.01 floor and shift the sell multiplier clamped into [1.0, 2.5]. -/
def tick_rotation (c : TickCtx) : TickCtx :=
  if c.st.freeze = false ∧ c.draws.rotate = true then
    { c with
        st := { c.st with current_profile := (c.st.current_profile + 1) % 3 },
        buy := max (1/100)
          (c.buy * (strategy_profiles.getD ((c.st.current_profile + 1) % 3) (1, 0)).1),
        sell := min (5/2)
          (max 1 (c.sell + (strategy_profiles.getD ((c.st.current_profile + 1) % 3) (1, 0)).2)),
        flags := { c.flags with rotApplied := true } }
  else c

/-- Lines 172 to 193: the classic adjustment chain, an if/elif ladder:
drawdown guard, else low-winrate shrink, else high-winrate grow. -/
def tick_risk (c : TickCtx) : TickCtx :=
  if c.st.freeze = true then c
  else if c.dd > 1/5 then
    { c with buy := max (1/100) (c.buy * (4/5)), sell := min (5/2) (c.sell + 1/10),
             flags := { c.flags with ddApplied := true } }
  else if c.wr < 2/5 then
    { c with buy := max (1/100) (c.buy * (9/10)),
             flags := { c.flags with wrDownApplied := true } }
  else if c.wr > 7/10 ∧ c.avg > 0 then
    { c with buy := min 2 (c.buy * (11/10)),
             flags := { c.flags with wrUpApplied := true } }
  else c

/-- Lines 195 to 201: random exploration, guarded by the freeze flag and the
0.1 coin flip: rescale the buy amount by the uniform draw with a 0.01
floor. -/
def tick_explore (c : TickCtx) : TickCtx :=
  if c.st.freeze = false ∧ c.draws.explore = true then
    { c with buy := max (1/100) (c.buy * c.draws.uniformFactor),
             flags := { c.flags with exploreApplied := true } }
  else c

/-- Lines 238 to 245: restore the memorized best parameters when current
profit fell below half the best and the optimizer is not frozen. -/
def tick_rollback (c : TickCtx) : TickCtx :=
  match c.st.best_params, c.st.best_profit with
  | some bp, some bprof =>
    if c.simProfit < bprof * (1/2) ∧ c.st.freeze = false then
      { c with st := { c.st with rollback_count := c.st.rollback_count + 1 },
               buy := bp.1, sell := bp.2,
               flags := { c.flags with rollbackApplied := true } }
    else c
  | _, _ => c

/-- Lines 246 to 251: loss and win streak bookkeeping. -/
def tick_streaks (c : TickCtx) : TickCtx :=
  if c.simProfit < c.st.last_profit then
    { c with st := { c.st with loss_streak := c.st.loss_streak + 1, win_streak := 0 } }
  else if c.simProfit > c.st.last_profit then
    { c with st := { c.st with win_streak := c.st.win_streak + 1, loss_streak := 0 } }
  else c

/-- Lines 252 to 259: the recovery mutation on three straight losses, and the
final `last_profit` update. -/
def tick_recovery (c : TickCtx) : TickCtx :=
  if 3 ≤ c.st.loss_streak ∧ c.st.freeze = false then
    { c with st := { c.st with last_profit := c.simProfit },
             buy := max (1/100) (c.buy * (7/10)), sell := min (5/2) (c.sell + 1/5),
             flags := { c.flags with recoveryApplied := true } }
  else { c with st := { c.st with last_profit := c.simProfit } }

/-- `AIAutoOptimizer.analyze_and_adjust` (lines 105 to 215) followed by its
call to `_check_and_apply_rollback`: the stages above composed in source
order.  Persistence of the best parameters and the Gemini hand-off are I/O
with no effect on this state. -/
def run_tick (st0 : OptState) (buy0 sell0 : ℚ) (trades : List TradeEntry)
    (d : Draws) : TickCtx :=
  tick_recovery (tick_streaks (tick_rollback (tick_explore (tick_risk
    (tick_rotation (tick_freeze_off (tick_freeze_on (tick_best
      (tick_init st0 buy0 sell0 trades d)))))))))

/-- One full optimizer tick: the new optimizer state, the new engine
parameters and the mutation flags. -/
def analyze_and_adjust (st0 : OptState) (buy0 sell0 : ℚ)
    (trades : List TradeEntry) (d : Draws) : OptState × ℚ × ℚ × TickFlags :=
  ((run_tick st0 buy0 sell0 trades d).st, (run_tick st0 buy0 sell0 trades d).buy,
    (run_tick st0 buy0 sell0 trades d).sell, (run_tick st0 buy0 sell0 trades d).flags)

/-- The parameter ranges of the specification: buy amount floored at 0.01 and
sell multiplier within [1.0, 2.5], together with the same ranges for any
memorized best parameters (which a rollback may restore). -/
def param_bounds (c : TickCtx) : Prop :=
  1/100 ≤ c.buy ∧ 1 ≤ c.sell ∧ c.sell ≤ 5/2 ∧
    (∀ p q, c.st.best_params = some (p, q) → 1/100 ≤ p ∧ 1 ≤ q ∧ q ≤ 5/2)

/-- None of the three risk-chain mutations has fired yet in this tick. -/
def risk_flags_clear (c : TickCtx) : Prop :=
  c.flags.ddApplied = false ∧ c.flags.wrDownApplied = false ∧
    c.flags.wrUpApplied = false

/-- At most one of the drawdown guard and the two winrate adjustments fired. -/
def risk_flags_exclusive (f : TickFlags) : Prop :=
  ¬ (f.ddApplied = true ∧ f.wrDownApplied = true) ∧
    ¬ (f.ddApplied = true ∧ f.wrUpApplied = true) ∧
    ¬ (f.wrDownApplied = true ∧ f.wrUpApplied = true)

/-- The position invariant of the data model: the effective running maximum
never falls below the buy price. -/
def max_inv (pos : Position) : Prop := pos.buyPrice ≤ pos.maxSeen

/-- The base (wrapped SOL) mint of `new_pair_scanner.py`. -/
def sol_mint : String := "So11111111111111111111111111111111111111112"

/-- The Raydium Liquidity Pool V4 program id of `new_pair_scanner.py`. -/
def raydium_lp_v4 : String := "675kPX9MHTjS2zt1qfr1NYHuzeLXfQM9H24wFSUt1Mp8"

/-- The `initialize2` instruction discriminant bytes (line 133). -/
def initialize2_discriminant : List Nat := [0xd8, 0x1c, 0x8e, 0x23, 0x84, 0x96, 0xe9, 0x9b]

/-- Byte-list version of `bytes.startswith`: the first argument is the
pattern. -/
def bytes_start_with : List Nat → List Nat → Bool
  | [], _ => true
  | _ :: _, [] => false
  | a :: as, b :: bs => a = b && bytes_start_with as bs

/-- Character-list version of `startswith` used to build the substring test. -/
def chars_start_with : List Char → List Char → Bool
  | [], _ => true
  | _ :: _, [] => false
  | a :: as, b :: bs => a = b && chars_start_with as bs

/-- Helper walking the haystack for the substring test. -/
def contains_sub_aux (pat : List Char) : List Char → Bool
  | [] => pat.isEmpty
  | c :: rest => chars_start_with pat (c :: rest) || contains_sub_aux pat rest

/-- Python `pat in hay` on strings: `pat` occurs contiguously in `hay`. -/
def str_contains_sub (hay pat : String) : Bool :=
  contains_sub_aux pat.data hay.data

/-- The triage substring of line 95 of new_pair_scanner.py. -/
def init_account_marker : String := "Instruction: InitializeAccount"

/-- The `value` object of a `logsNotification`, restricted to the fields the
scanner reads.  A missing or null `signature` is `none`; the `logs` list
holds the log lines (a string body is split into lines by the source, which
yields the same line list). -/
structure NotifValue where
  signature : Option String
  logs : List String
  deriving DecidableEq, Repr

/-- One inbound websocket message as seen by the `_listen` loop.  `value =
none` models a non-dict `value` field, skipped by the `isinstance` guard. -/
structure Notification where
  method : String
  value : Option NotifValue
  deriving DecidableEq, Repr

/-- The per-message filter of `_listen` (lines 65 to 99): the returned
signature is the one enqueued for `process_new_pool`, `none` when the message
is skipped. -/
def handle_notification (n : Notification) : Option String :=
  match n.value with
  | none => none
  | some v =>
    if n.method = "logsNotification" then
      if v.logs.any (fun line => str_contains_sub line init_account_marker) then
        match v.signature with
        | some s => some s
        | none => none
      else none
    else none

/-- One top-level instruction of a fetched transaction: program id, decoded
data bytes and account list. -/
structure Instruction where
  program_id : String
  data_bytes : List Nat
  accounts : List String
  deriving DecidableEq, Repr

/-- The message of a fetched transaction: account keys and top-level
instructions. -/
structure TxMessage where
  account_keys : List String
  instructions : List Instruction
  deriving DecidableEq, Repr

/-- The instruction scan of `process_new_pool` (lines 134 to 156).  The first
instruction carrying the Raydium program id and the `initialize2` discriminant
decides the outcome: mints are read at account offsets 8 and 9 (fewer than 10
accounts raises `IndexError`, caught by the outer handler), a non-SOL pair
returns without forwarding, otherwise the non-SOL mint is forwarded. -/
def scan_instructions : List Instruction → Option String
  | [] => none
  | ix :: rest =>
    if ix.program_id = raydium_lp_v4 ∧
        bytes_start_with initialize2_discriminant ix.data_bytes = true then
      if ix.accounts.length < 10 then none
      else
        let t0 := ix.accounts.getD 8 ""
        let t1 := ix.accounts.getD 9 ""
        if t0 = sol_mint then some t1
        else if t1 = sol_mint then some t0
        else none
    else scan_instructions rest

/-- `NewPairScanner.process_new_pool` (lines 101 to 159) as a function of the
fetched transaction: the Raydium pre-filter over the account keys, then the
instruction scan; a forwarded mint is handed to
`process_new_token_candidate` with `current_price = 0.0`, modelled by pairing
it with the price 0. -/
def process_new_pool (tx : TxMessage) : Option (String × ℚ) :=
  if raydium_lp_v4 ∈ tx.account_keys then
    (scan_instructions tx.instructions).map (fun m => (m, 0))
  else none

/-- A real-mode engine with 1 SOL of capital and in-range parameters, used by
concrete evaluations. -/
def sample_real_engine : Engine :=
  { buyAmountSol := 3/5, sellMultiplier := 2, trailingStopPercent := 3/20,
    simulationMode := false, heldTokens := [], simulationResults := [],
    realTrades := [], creatorCache := [], capital := 1, availableCapital := 1 }

/-- Probe results that pass every admission filter: clean 200 oracle
response, liquid and sellable quotes, funded wallet, successful buy. -/
def orc_all_clear : BuyOracles :=
  { explorationPhase := true, creators := [], honeypotResp := .ok 200
      { honeypotResult := false, isHoneypot := false, taxes := [],
        marketcap := none, marketCapAlt := none, antiBot := false,
        antiBotDetected := false },
    liquidityResp := .ok "1000", sellableResp := .ok "1000",
    balanceOk := true, solBalance := 10, buySuccess := true, now := 0 }

/-- Probe results where the safety oracle call raised and everything else
passes. -/
def orc_oracle_error : BuyOracles :=
  { orc_all_clear with honeypotResp := .err }

/-- Probe results where the forward-liquidity quote raised and everything
else passes. -/
def orc_liquidity_error : BuyOracles :=
  { orc_all_clear with liquidityResp := .err }

/-- A 200-status oracle body with every field clean. -/
def clean_oracle_data : OracleData :=
  { honeypotResult := false, isHoneypot := false, taxes := [],
    marketcap := none, marketCapAlt := none, antiBot := false,
    antiBotDetected := false }

/-- Probe results where both the safety-oracle call and the forward-liquidity
quote raised. -/
def orc_both_err : BuyOracles :=
  { orc_all_clear with honeypotResp := .err, liquidityResp := .err }

/-- A simulation-mode engine holding one position bought at price 1. -/
def sample_sim_engine : Engine :=
  { buyAmountSol := 1/10, sellMultiplier := 2, trailingStopPercent := 3/20,
    simulationMode := true,
    heldTokens := [("T", ⟨1, 1/10, ["W1"], 0, none⟩)],
    simulationResults := [], realTrades := [], creatorCache := [],
    capital := 1, availableCapital := 1 }

/-- A simulation-mode engine holding one position bought at 1 whose running
maximum has reached 2. -/
def sample_sim_engine_max2 : Engine :=
  { sample_sim_engine with
    heldTokens := [("T", ⟨1, 1/10, ["W1"], 0, some 2⟩)] }

/-- An exit-evaluation environment with no dump signal and a failing real
sell. -/
def orc_eval_plain : EvalOracles :=
  { whale := false, creatorSells := false, sellResult := none, now := 100 }

/-- An optimizer state before any tick: unfrozen, nothing memorized. -/
def sample_opt_state : OptState :=
  { freeze := false, best_params := none, best_profit := none,
    rollback_count := 0, loss_streak := 0, win_streak := 0,
    last_profit := 0, max_drawdown := 0, current_profile := 2 }

/-- A simulated journal with one winning and one losing completed trade:
profit 1/2, winrate 1/2 and maximum drawdown 1/2. -/
def sample_trades : List TradeEntry :=
  [⟨"A", 1, "buy"⟩, ⟨"A", 2, "sell"⟩, ⟨"B", 1, "buy"⟩, ⟨"B", 1/2, "sell"⟩]

/-- Random draws where the rotation coin flip fired and the exploration flip
did not. -/
def draws_rotate : Draws := { rotate := true, explore := false, uniformFactor := 1 }

/-- A simulation-mode engine holding nothing. -/
def sample_sim_engine_empty : Engine := { sample_sim_engine with heldTokens := [] }

/-- A simulation-mode engine holding one position bought at price 0, as
created for every candidate forwarded by the pair scanner. -/
def sample_zero_pos_engine : Engine :=
  { sample_sim_engine with heldTokens := [("M", ⟨0, 1/10, [], 0, none⟩)] }

/-- A notification carrying an InitializeAccount log line. -/
def sample_notification : Notification :=
  { method := "logsNotification",
    value := some ⟨some "SIG1", ["Program log: Instruction: InitializeAccount"]⟩ }

/-- A fetched transaction whose second instruction is a Raydium
`initialize2` pairing SOL with the mint "NEWMINT". -/
def sample_tx : TxMessage :=
  { account_keys := ["PAYER", raydium_lp_v4],
    instructions :=
      [ { program_id := "OTHER", data_bytes := [1, 2], accounts := [] },
        { program_id := raydium_lp_v4,
          data_bytes := [0xd8, 0x1c, 0x8e, 0x23, 0x84, 0x96, 0xe9, 0x9b, 7],
          accounts := ["a0", "a1", "a2", "a3", "a4", "a5", "a6", "a7",
            sol_mint, "NEWMINT", "a10"] } ] }

theorem alist_lookup_erase_self {α : Type} (l : List (String × α)) (k : String) :
    alist_lookup (alist_erase l k) k = none := by
  induction l with
  | nil => rfl
  | cons h t ih =>
    obtain ⟨k0, v0⟩ := h
    by_cases hk : k0 = k
    · simpa [alist_erase, hk] using ih
    · simpa [alist_erase, alist_lookup, hk] using ih

theorem alist_lookup_set_self {α : Type} (l : List (String × α)) (k : String) (v : α) :
    alist_lookup (alist_set l k v) k = some v := by
  induction l with
  | nil => simp [alist_set, alist_lookup]
  | cons h t ih =>
    obtain ⟨k0, v0⟩ := h
    by_cases hk : k0 = k
    · simp [alist_set, alist_lookup, hk]
    · simpa [alist_set, alist_lookup, hk] using ih

theorem execute_sale_capital (eng : Engine) (token : String) (sr : Option ℚ) :
    (execute_sale eng token sr).1.availableCapital = eng.availableCapital := by
  unfold execute_sale
  cases h : alist_lookup eng.heldTokens token with
  | none => rfl
  | some pos =>
    by_cases hs : eng.simulationMode = true
    · simp [hs]
    · cases sr with
      | some sp => simp [hs]
      | none => simp [hs]

theorem execute_sale_lookup_or_id (eng : Engine) (token : String) (sr : Option ℚ) :
    alist_lookup (execute_sale eng token sr).1.heldTokens token = none ∨
      (execute_sale eng token sr).1 = eng := by
  unfold execute_sale
  cases h : alist_lookup eng.heldTokens token with
  | none => right; rfl
  | some pos =>
    by_cases hs : eng.simulationMode = true
    · left
      simp [hs, alist_lookup_erase_self]
    · cases sr with
      | some sp =>
        left
        simp [hs, alist_lookup_erase_self]
      | none =>
        right
        simp [hs]

theorem update_max_buyPrice (pos : Position) (p : ℚ) :
    (update_max pos p).buyPrice = pos.buyPrice := by
  unfold update_max
  split <;> rfl

theorem update_max_maxSeen (pos : Position) (p : ℚ) :
    (update_max pos p).maxSeen = max pos.maxSeen p := by
  unfold update_max Position.maxSeen
  rcases lt_or_ge (pos.maxPrice.getD pos.buyPrice) p with h | h
  · simp only [if_pos h, Option.getD_some]
    exact (max_eq_right h.le).symm
  · simp only [if_neg (not_lt.mpr h), Option.getD_some]
    exact (max_eq_left h).symm

theorem ev_notHeld (eng : Engine) (token : String) (price : ℚ) (orc : EvalOracles)
    (h : alist_lookup eng.heldTokens token = none) :
    evaluate_held_tokens_for_sale eng token price orc = (eng, .notHeld) := by
  unfold evaluate_held_tokens_for_sale
  rw [h]

theorem ev_zeroDiv (eng : Engine) (token : String) (price : ℚ) (orc : EvalOracles)
    (pos : Position) (h : alist_lookup eng.heldTokens token = some pos)
    (h0 : pos.buyPrice = 0) :
    evaluate_held_tokens_for_sale eng token price orc = (eng, .zeroDivCaught) := by
  unfold evaluate_held_tokens_for_sale
  rw [h]
  dsimp only
  rw [if_pos h0]

theorem ev_tp_sim (eng : Engine) (token : String) (price : ℚ) (orc : EvalOracles)
    (pos : Position) (h : alist_lookup eng.heldTokens token = some pos)
    (h0 : ¬ pos.buyPrice = 0) (htp : eng.sellMultiplier ≤ price / pos.buyPrice)
    (hsim : eng.simulationMode = true) :
    evaluate_held_tokens_for_sale eng token price orc =
      ((execute_sale eng token orc.sellResult).1, .tookProfit .simKeyError) := by
  unfold evaluate_held_tokens_for_sale
  rw [h]
  dsimp only
  rw [if_neg h0, if_pos htp, if_pos hsim]
  have herase : alist_lookup (execute_sale eng token orc.sellResult).1.heldTokens token
      = none := by
    unfold execute_sale
    rw [h]
    dsimp only
    rw [if_pos hsim]
    exact alist_lookup_erase_self ..
  rw [herase]

theorem ev_tp_real (eng : Engine) (token : String) (price : ℚ) (orc : EvalOracles)
    (pos : Position) (h : alist_lookup eng.heldTokens token = some pos)
    (h0 : ¬ pos.buyPrice = 0) (htp : eng.sellMultiplier ≤ price / pos.buyPrice)
    (hsim : eng.simulationMode = false) :
    evaluate_held_tokens_for_sale eng token price orc =
      ((execute_sale eng token orc.sellResult).1, .tookProfit .realReturn) := by
  unfold evaluate_held_tokens_for_sale
  rw [h]
  dsimp only
  rw [if_neg h0, if_pos htp, if_neg (by simp [hsim])]

theorem ev_trailing (eng : Engine) (token : String) (price : ℚ) (orc : EvalOracles)
    (pos : Position) (h : alist_lookup eng.heldTokens token = some pos)
    (h0 : ¬ pos.buyPrice = 0) (htp : ¬ eng.sellMultiplier ≤ price / pos.buyPrice)
    (htr : price < (update_max pos price).maxSeen * (1 - eng.trailingStopPercent)) :
    evaluate_held_tokens_for_sale eng token price orc =
      ((execute_sale (with_updated_max eng token pos price) token orc.sellResult).1,
        .trailingStopped) := by
  unfold evaluate_held_tokens_for_sale
  rw [h]
  dsimp only
  rw [if_neg h0, if_neg htp, if_pos htr]

theorem ev_dump (eng : Engine) (token : String) (price : ℚ) (orc : EvalOracles)
    (pos : Position) (h : alist_lookup eng.heldTokens token = some pos)
    (h0 : ¬ pos.buyPrice = 0) (htp : ¬ eng.sellMultiplier ≤ price / pos.buyPrice)
    (htr : ¬ price < (update_max pos price).maxSeen * (1 - eng.trailingStopPercent))
    (hd : (orc.whale || orc.creatorSells) = true) :
    evaluate_held_tokens_for_sale eng token price orc =
      ((execute_sale (with_updated_max eng token pos price) token orc.sellResult).1,
        .dumpSold) := by
  unfold evaluate_held_tokens_for_sale
  rw [h]
  dsimp only
  rw [if_neg h0, if_neg htp, if_neg htr, if_pos hd]

theorem ev_held (eng : Engine) (token : String) (price : ℚ) (orc : EvalOracles)
    (pos : Position) (h : alist_lookup eng.heldTokens token = some pos)
    (h0 : ¬ pos.buyPrice = 0) (htp : ¬ eng.sellMultiplier ≤ price / pos.buyPrice)
    (htr : ¬ price < (update_max pos price).maxSeen * (1 - eng.trailingStopPercent))
    (hd : (orc.whale || orc.creatorSells) = false) :
    evaluate_held_tokens_for_sale eng token price orc =
      (with_updated_max eng token pos price, .held) := by
  unfold evaluate_held_tokens_for_sale
  rw [h]
  dsimp only
  rw [if_neg h0, if_neg htp, if_neg htr, if_neg (by simp [hd])]

theorem execute_sale_sim (eng : Engine) (token : String) (sr : Option ℚ)
    (pos : Position) (h : alist_lookup eng.heldTokens token = some pos)
    (hsim : eng.simulationMode = true) :
    execute_sale eng token sr =
      ({ eng with
          simulationResults := eng.simulationResults ++
            [⟨token, pos.buyPrice * eng.sellMultiplier, "sell"⟩],
          heldTokens := alist_erase eng.heldTokens token },
        some (pos.buyPrice * eng.sellMultiplier)) := by
  unfold execute_sale
  rw [h]
  dsimp only
  rw [if_pos hsim]

theorem execute_sale_real_success (eng : Engine) (token : String) (sp : ℚ)
    (pos : Position) (h : alist_lookup eng.heldTokens token = some pos)
    (hsim : eng.simulationMode = false) :
    execute_sale eng token (some sp) =
      ({ eng with
          realTrades := eng.realTrades ++ [⟨token, sp, "sell"⟩],
          heldTokens := alist_erase eng.heldTokens token },
        some sp) := by
  unfold execute_sale
  rw [h]
  dsimp only
  rw [if_neg (by simp [hsim])]

theorem execute_sale_real_fail (eng : Engine) (token : String)
    (pos : Position) (h : alist_lookup eng.heldTokens token = some pos)
    (hsim : eng.simulationMode = false) :
    execute_sale eng token none = (eng, none) := by
  unfold execute_sale
  rw [h]
  dsimp only
  rw [if_neg (by simp [hsim])]

theorem buy_decision_sim (eng : Engine) (token : String) (orc : BuyOracles)
    (hsim : eng.simulationMode = true) :
    buy_decision eng token orc = .simBought := by
  unfold buy_decision
  rw [if_pos hsim]

/-- C2: exit policy of `evaluate_held_tokens_for_sale` for a held position
with a positive buy price: the take-profit branch fires exactly when
`price / buy_price` reaches `sell_multiplier`; otherwise the trailing stop
fires exactly when the price is below the updated running maximum scaled by
`1 - trailing_stop_percent`; and a dump-signal (creator-side) sale is only
reached when both preceding checks failed, so take-profit outranks
trailing-stop outranks creator-sell. -/
theorem c2_exit_policy (eng : Engine) (token : String) (pos : Position)
    (price : ℚ) (orc : EvalOracles)
    (h : alist_lookup eng.heldTokens token = some pos)
    (hb : 0 < pos.buyPrice) :
    ((∃ f, (evaluate_held_tokens_for_sale eng token price orc).2 = .tookProfit f) ↔
      eng.sellMultiplier ≤ price / pos.buyPrice) ∧
    ((evaluate_held_tokens_for_sale eng token price orc).2 = .trailingStopped ↔
      (¬ eng.sellMultiplier ≤ price / pos.buyPrice ∧
        price < (update_max pos price).maxSeen * (1 - eng.trailingStopPercent))) ∧
    ((evaluate_held_tokens_for_sale eng token price orc).2 = .dumpSold →
      (¬ eng.sellMultiplier ≤ price / pos.buyPrice ∧
        ¬ price < (update_max pos price).maxSeen * (1 - eng.trailingStopPercent))) := by
  have h0 : ¬ pos.buyPrice = 0 := by
    intro hc
    exact absurd hc (ne_of_gt hb)
  by_cases htp : eng.sellMultiplier ≤ price / pos.buyPrice
  · cases hsim : eng.simulationMode with
    | true =>
      rw [ev_tp_sim eng token price orc pos h h0 htp hsim]
      refine ⟨⟨fun _ => htp, fun _ => ⟨.simKeyError, rfl⟩⟩, ?_, ?_⟩ <;> simp [htp]
    | false =>
      rw [ev_tp_real eng token price orc pos h h0 htp hsim]
      refine ⟨⟨fun _ => htp, fun _ => ⟨.realReturn, rfl⟩⟩, ?_, ?_⟩ <;> simp [htp]
  · by_cases htr : price < (update_max pos price).maxSeen * (1 - eng.trailingStopPercent)
    · rw [ev_trailing eng token price orc pos h h0 htp htr]
      refine ⟨⟨fun hf => ?_, fun hc => absurd hc htp⟩, ?_, ?_⟩
      · obtain ⟨f, hf⟩ := hf
        exact absurd hf (by simp)
      · simp [htp, htr]
      · simp
    · cases hd : (orc.whale || orc.creatorSells) with
      | true =>
        rw [ev_dump eng token price orc pos h h0 htp htr hd]
        refine ⟨⟨fun hf => ?_, fun hc => absurd hc htp⟩, ?_, ?_⟩
        · obtain ⟨f, hf⟩ := hf
          exact absurd hf (by simp)
        · simp [htr]
        · simp [htp, htr]
      | false =>
        rw [ev_held eng token price orc pos h h0 htp htr hd]
        refine ⟨⟨fun hf => ?_, fun hc => absurd hc htp⟩, ?_, ?_⟩
        · obtain ⟨f, hf⟩ := hf
          exact absurd hf (by simp)
        · simp [htr]
        · simp

/-- C2 witness: a held position bought at 1 with sell multiplier 2 takes
profit at the observed price 2. -/
theorem c2_exit_policy_witness :
    ∃ f, (evaluate_held_tokens_for_sale sample_sim_engine "T" 2 orc_eval_plain).2
      = EvalOutcome.tookProfit f := by
  have h := c2_exit_policy sample_sim_engine "T" ⟨1, 1/10, ["W1"], 0, none⟩ 2 orc_eval_plain
    (of_decide_eq_true (by with_unfolding_all rfl))
    (of_decide_eq_true (by with_unfolding_all rfl))
  exact h.1.mpr (of_decide_eq_true (by with_unfolding_all rfl))

/-- C1: capital accounting.  The source reads `available_capital` as an
admission gate (line 208) but never decrements it on a buy nor increments it
on a sell: no branch of `process_new_token_candidate`,
`evaluate_held_tokens_for_sale` or `_execute_sale` writes it.  Concretely, a
1-SOL engine with `buy_amount_sol = 0.6` admits two buys in a row and still
reports 1 SOL available, where the specified accounting would have rejected
the second buy. -/
theorem c1_available_capital_unchanged :
    (∀ (eng : Engine) (token : String) (price : ℚ) (orc : BuyOracles),
      (process_new_token_candidate eng token price orc).1.availableCapital =
        eng.availableCapital) ∧
    (∀ (eng : Engine) (token : String) (price : ℚ) (orc : EvalOracles),
      (evaluate_held_tokens_for_sale eng token price orc).1.availableCapital =
        eng.availableCapital) ∧
    (process_new_token_candidate sample_real_engine "A" 1 orc_all_clear).2 = .bought ∧
    (process_new_token_candidate
      (process_new_token_candidate sample_real_engine "A" 1 orc_all_clear).1
      "B" 1 orc_all_clear).2 = .bought ∧
    (process_new_token_candidate
      (process_new_token_candidate sample_real_engine "A" 1 orc_all_clear).1
      "B" 1 orc_all_clear).1.availableCapital = 1 := by
  refine ⟨?_, ?_, of_decide_eq_true (by with_unfolding_all rfl),
    of_decide_eq_true (by with_unfolding_all rfl),
    of_decide_eq_true (by with_unfolding_all rfl)⟩
  · intro eng token price orc
    unfold process_new_token_candidate
    cases h : buy_decision eng token orc <;> rfl
  · intro eng token price orc
    cases h : alist_lookup eng.heldTokens token with
    | none => rw [ev_notHeld eng token price orc h]
    | some pos =>
      by_cases h0 : pos.buyPrice = 0
      · rw [ev_zeroDiv eng token price orc pos h h0]
      · by_cases htp : eng.sellMultiplier ≤ price / pos.buyPrice
        · cases hsim : eng.simulationMode with
          | true =>
            rw [ev_tp_sim eng token price orc pos h h0 htp hsim]
            dsimp only
            rw [execute_sale_capital]
          | false =>
            rw [ev_tp_real eng token price orc pos h h0 htp hsim]
            dsimp only
            rw [execute_sale_capital]
        · by_cases htr : price < (update_max pos price).maxSeen * (1 - eng.trailingStopPercent)
          · rw [ev_trailing eng token price orc pos h h0 htp htr]
            dsimp only
            rw [execute_sale_capital]
            rfl
          · cases hd : (orc.whale || orc.creatorSells) with
            | true =>
              rw [ev_dump eng token price orc pos h h0 htp htr hd]
              dsimp only
              rw [execute_sale_capital]
              rfl
            | false =>
              rw [ev_held eng token price orc pos h h0 htp htr hd]
              rfl

/-- C3 counterexample: the claim says that any sub-check error yields the
conservative all-negative report and hence rejection, but a safety-oracle
error yields the permissive default report (`is_honeypot = false`, no taxes,
zero marketcap, no anti-bot), and a token whose only failing sub-check is the
safety oracle is admitted and bought. -/
theorem c3_oracle_error_admitted :
    orc_oracle_error.honeypotResp = OracleResp.err ∧
      buy_decision sample_real_engine "T" orc_oracle_error = .bought := by
  exact ⟨rfl, of_decide_eq_true (by with_unfolding_all rfl)⟩

/-- C3 amended: `evaluate` indeed never raises (each probe is total), and the
two quote probes map their errors conservatively to `false`, which the
admission ladder turns into a rejection; but the safety-oracle probe maps any
raised exception or non-200 status to the permissive default report, and the
admission decision on an oracle error is then identical to the decision on a
clean 200 response, so the token is not rejected on the report. -/
theorem c3_error_handling_amended :
    (check_token_honeypot_and_taxes .err = default_honeypot_info) ∧
    (∀ (st : Nat) (data : OracleData), ¬ st = 200 →
      check_token_honeypot_and_taxes (.ok st data) = default_honeypot_info) ∧
    (check_token_liquidity .err = false) ∧
    (check_token_sellable .err = false) ∧
    (∀ (eng : Engine) (token : String) (orc : BuyOracles),
      buy_decision eng token { orc with honeypotResp := .err } =
        buy_decision eng token { orc with honeypotResp := .ok 200 clean_oracle_data }) ∧
    (∀ (eng : Engine) (token : String) (orc : BuyOracles),
      eng.simulationMode = false → orc.explorationPhase = true →
      orc.balanceOk = true → ¬ orc.solBalance < eng.buyAmountSol + 1/1000 →
      ¬ eng.availableCapital < eng.buyAmountSol →
      (alist_lookup eng.heldTokens token).isSome = false →
      orc.honeypotResp = .err → orc.liquidityResp = .err →
      buy_decision eng token orc = .rejectedLiquidity) := by
  refine ⟨rfl, ?_, rfl, rfl, ?_, ?_⟩
  · intro st data hst
    unfold check_token_honeypot_and_taxes
    dsimp only
    rw [if_neg hst]
  · intro eng token orc
    with_unfolding_all rfl
  · intro eng token orc hsim hexp hbal hsol hcap hheld horc hliq
    unfold buy_decision
    rw [if_neg (by simp [hsim]), if_neg (by simp [hexp]),
      if_neg (not_or.mpr ⟨by simp [hbal], hsol⟩), if_neg hcap,
      if_neg (by simp [hheld]), horc, hliq]
    rw [if_neg (by decide), if_neg (fun hc => hc.1 rfl), if_neg (fun hc => hc.1 rfl),
      if_neg (by decide), if_pos (show check_token_liquidity QuoteResp.err = false from rfl)]

/-- C3 amended witness: a 500-status oracle response maps to the default
report, and a token whose safety-oracle and liquidity probes both raised is
rejected for liquidity. -/
theorem c3_error_handling_amended_witness :
    check_token_honeypot_and_taxes (.ok 500 clean_oracle_data) = default_honeypot_info ∧
      buy_decision sample_real_engine "T" orc_both_err = .rejectedLiquidity := by
  refine ⟨c3_error_handling_amended.2.1 500 clean_oracle_data (by decide), ?_⟩
  exact c3_error_handling_amended.2.2.2.2.2 sample_real_engine "T" orc_both_err rfl rfl rfl
    (of_decide_eq_true (by with_unfolding_all rfl))
    (of_decide_eq_true (by with_unfolding_all rfl)) rfl rfl rfl

/-- C4 counterexample: `set_param` performs no range validation, so the claim
that an out-of-range write is rejected without side-effects is false: setting
`buy_amount_sol` to 100 succeeds and leaves the engine with
`buy_amount_sol = 100`, far outside [0.01, 2.0]. -/
theorem c4_set_param_accepts_out_of_range :
    (set_param sample_real_engine "buy_amount_sol" 100).buyAmountSol = 100 ∧
      ¬ ((set_param sample_real_engine "buy_amount_sol" 100).buyAmountSol ≤ 2) := by
  exact of_decide_eq_true (by with_unfolding_all rfl)

/-- C7 counterexample: on a tick with the rotation coin flip fired and a
journal whose maximum drawdown is 1/2, the strategy-profile rotation (5.a)
and the drawdown guard (5.b) are both applied, refuting the claim that at
most one of 5.a, 5.b, 5.c is applied per tick. -/
theorem c7_rotation_and_drawdown_same_tick :
    (analyze_and_adjust sample_opt_state (1/10) 2 sample_trades draws_rotate).2.2.2.rotApplied
      = true ∧
    (analyze_and_adjust sample_opt_state (1/10) 2 sample_trades draws_rotate).2.2.2.ddApplied
      = true := by
  exact of_decide_eq_true (by with_unfolding_all rfl)

theorem pb_best {c : TickCtx} (h : param_bounds c) : param_bounds (tick_best c) := by
  unfold tick_best
  split
  · refine ⟨h.1, h.2.1, h.2.2.1, ?_⟩
    intro p q hpq
    simp only [Option.some.injEq, Prod.mk.injEq] at hpq
    obtain ⟨hp, hq⟩ := hpq
    exact ⟨hp ▸ h.1, hq ▸ h.2.1, hq ▸ h.2.2.1⟩
  · exact h

theorem pb_freeze_on {c : TickCtx} (h : param_bounds c) :
    param_bounds (tick_freeze_on c) := by
  unfold tick_freeze_on
  split
  · exact ⟨h.1, h.2.1, h.2.2.1, h.2.2.2⟩
  · exact h

theorem pb_freeze_off {c : TickCtx} (h : param_bounds c) :
    param_bounds (tick_freeze_off c) := by
  unfold tick_freeze_off
  split
  · exact ⟨h.1, h.2.1, h.2.2.1, h.2.2.2⟩
  · exact h

theorem pb_rotation {c : TickCtx} (h : param_bounds c) :
    param_bounds (tick_rotation c) := by
  unfold tick_rotation
  split
  · exact ⟨le_max_left _ _, le_min (by norm_num) (le_max_left _ _), min_le_left _ _, h.2.2.2⟩
  · exact h

theorem pb_risk {c : TickCtx} (h : param_bounds c) : param_bounds (tick_risk c) := by
  unfold tick_risk
  split_ifs
  · exact h
  · refine ⟨le_max_left _ _, le_min (by norm_num) (by linarith [h.2.1]), min_le_left _ _, h.2.2.2⟩
  · exact ⟨le_max_left _ _, h.2.1, h.2.2.1, h.2.2.2⟩
  · have hb0 : (0 : ℚ) ≤ c.buy := le_trans (by norm_num) h.1
    have : c.buy ≤ c.buy * (11/10) := le_mul_of_one_le_right hb0 (by norm_num)
    exact ⟨le_min (by norm_num) (by linarith [h.1]), h.2.1, h.2.2.1, h.2.2.2⟩
  · exact h

theorem pb_explore {c : TickCtx} (h : param_bounds c) :
    param_bounds (tick_explore c) := by
  unfold tick_explore
  split
  · exact ⟨le_max_left _ _, h.2.1, h.2.2.1, h.2.2.2⟩
  · exact h

theorem pb_rollback {c : TickCtx} (h : param_bounds c) :
    param_bounds (tick_rollback c) := by
  unfold tick_rollback
  split
  · case _ bp bprof heq _ =>
    split
    · obtain ⟨p, q⟩ := bp
      obtain ⟨hp, hq1, hq2⟩ := h.2.2.2 p q heq
      exact ⟨hp, hq1, hq2, h.2.2.2⟩
    · exact h
  · exact h

theorem pb_streaks {c : TickCtx} (h : param_bounds c) :
    param_bounds (tick_streaks c) := by
  unfold tick_streaks
  split_ifs <;> exact ⟨h.1, h.2.1, h.2.2.1, h.2.2.2⟩

theorem pb_recovery {c : TickCtx} (h : param_bounds c) :
    param_bounds (tick_recovery c) := by
  unfold tick_recovery
  split
  · exact ⟨le_max_left _ _, le_min (by norm_num) (by linarith [h.2.1]), min_le_left _ _, h.2.2.2⟩
  · exact ⟨h.1, h.2.1, h.2.2.1, h.2.2.2⟩

/-- C4 amended: `set_param` writes any value to an existing parameter with no
range check (so the claimed reject-out-of-range behavior does not exist), and
the Self-Tuning Controller mutations preserve the 0.01 floor on the buy
amount and keep the sell multiplier in [1.0, 2.5] whenever it started in
range and any memorized best parameters are in range.  The 2.0 upper bound on
the buy amount is not preserved in general (profile rotation and random
exploration have no upper clamp). -/
theorem c4_param_bounds_amended :
    (∀ (eng : Engine) (v : ℚ), (set_param eng "buy_amount_sol" v).buyAmountSol = v) ∧
    (∀ (eng : Engine) (v : ℚ), (set_param eng "sell_multiplier" v).sellMultiplier = v) ∧
    (∀ (st0 : OptState) (buy0 sell0 : ℚ) (trades : List TradeEntry) (d : Draws),
      1/100 ≤ buy0 → 1 ≤ sell0 → sell0 ≤ 5/2 →
      (∀ p q, st0.best_params = some (p, q) → 1/100 ≤ p ∧ 1 ≤ q ∧ q ≤ 5/2) →
      1/100 ≤ (analyze_and_adjust st0 buy0 sell0 trades d).2.1 ∧
        1 ≤ (analyze_and_adjust st0 buy0 sell0 trades d).2.2.1 ∧
        (analyze_and_adjust st0 buy0 sell0 trades d).2.2.1 ≤ 5/2) := by
  refine ⟨fun eng v => rfl, fun eng v => ?_, ?_⟩
  · unfold set_param
    rw [if_neg (by decide), if_pos rfl]
  · intro st0 buy0 sell0 trades d hb hs1 hs2 hbp
    have h0 : param_bounds (tick_init st0 buy0 sell0 trades d) := ⟨hb, hs1, hs2, hbp⟩
    have h9 := pb_recovery (pb_streaks (pb_rollback (pb_explore (pb_risk (pb_rotation
      (pb_freeze_off (pb_freeze_on (pb_best h0))))))))
    exact ⟨h9.1, h9.2.1, h9.2.2.1⟩

/-- C4 amended witness: the bounds hold on a concrete tick that applies both
the rotation and the drawdown guard. -/
theorem c4_param_bounds_amended_witness :
    1/100 ≤ (analyze_and_adjust sample_opt_state (1/10) 2 sample_trades draws_rotate).2.1 ∧
      1 ≤ (analyze_and_adjust sample_opt_state (1/10) 2 sample_trades draws_rotate).2.2.1 ∧
      (analyze_and_adjust sample_opt_state (1/10) 2 sample_trades draws_rotate).2.2.1 ≤ 5/2 := by
  exact c4_param_bounds_amended.2.2 sample_opt_state (1/10) 2 sample_trades draws_rotate
    (of_decide_eq_true (by with_unfolding_all rfl))
    (of_decide_eq_true (by with_unfolding_all rfl))
    (of_decide_eq_true (by with_unfolding_all rfl))
    (fun p q hpq => by simp [sample_opt_state] at hpq)

theorem rf_init (st0 : OptState) (buy0 sell0 : ℚ) (trades : List TradeEntry)
    (d : Draws) : risk_flags_clear (tick_init st0 buy0 sell0 trades d) :=
  ⟨rfl, rfl, rfl⟩

theorem rf_best {c : TickCtx} (h : risk_flags_clear c) :
    risk_flags_clear (tick_best c) := by
  unfold tick_best
  split <;> exact h

theorem rf_freeze_on {c : TickCtx} (h : risk_flags_clear c) :
    risk_flags_clear (tick_freeze_on c) := by
  unfold tick_freeze_on
  split <;> exact h

theorem rf_freeze_off {c : TickCtx} (h : risk_flags_clear c) :
    risk_flags_clear (tick_freeze_off c) := by
  unfold tick_freeze_off
  split <;> exact h

theorem rf_rotation {c : TickCtx} (h : risk_flags_clear c) :
    risk_flags_clear (tick_rotation c) := by
  unfold tick_rotation
  split <;> exact h

theorem excl_risk {c : TickCtx} (h : risk_flags_clear c) :
    risk_flags_exclusive (tick_risk c).flags := by
  obtain ⟨h1, h2, h3⟩ := h
  unfold tick_risk
  split_ifs <;> refine ⟨?_, ?_, ?_⟩ <;> rintro ⟨ha, hb⟩ <;> simp_all

theorem excl_explore {c : TickCtx} (h : risk_flags_exclusive c.flags) :
    risk_flags_exclusive (tick_explore c).flags := by
  unfold tick_explore
  split <;> exact h

theorem excl_rollback {c : TickCtx} (h : risk_flags_exclusive c.flags) :
    risk_flags_exclusive (tick_rollback c).flags := by
  unfold tick_rollback
  split
  · split
    · exact h
    · exact h
  · exact h

theorem excl_streaks {c : TickCtx} (h : risk_flags_exclusive c.flags) :
    risk_flags_exclusive (tick_streaks c).flags := by
  unfold tick_streaks
  split_ifs <;> exact h

theorem excl_recovery {c : TickCtx} (h : risk_flags_exclusive c.flags) :
    risk_flags_exclusive (tick_recovery c).flags := by
  unfold tick_recovery
  split <;> exact h

/-- C7 amended: within one optimizer tick, the drawdown guard (5.b) and the
two winrate-driven adjustments (5.c) form an if/elif chain, so at most one of
them is applied; the strategy-profile rotation (5.a) is an independent `if`
and may be applied in the same tick (see the counterexample theorem). -/
theorem c7_risk_mutations_exclusive :
    ∀ (st0 : OptState) (buy0 sell0 : ℚ) (trades : List TradeEntry) (d : Draws),
      ¬ ((analyze_and_adjust st0 buy0 sell0 trades d).2.2.2.ddApplied = true ∧
          (analyze_and_adjust st0 buy0 sell0 trades d).2.2.2.wrDownApplied = true) ∧
      ¬ ((analyze_and_adjust st0 buy0 sell0 trades d).2.2.2.ddApplied = true ∧
          (analyze_and_adjust st0 buy0 sell0 trades d).2.2.2.wrUpApplied = true) ∧
      ¬ ((analyze_and_adjust st0 buy0 sell0 trades d).2.2.2.wrDownApplied = true ∧
          (analyze_and_adjust st0 buy0 sell0 trades d).2.2.2.wrUpApplied = true) := by
  intro st0 buy0 sell0 trades d
  have h := excl_recovery (excl_streaks (excl_rollback (excl_explore (excl_risk
    (rf_rotation (rf_freeze_off (rf_freeze_on (rf_best
      (rf_init st0 buy0 sell0 trades d)))))))))
  exact ⟨h.1, h.2.1, h.2.2⟩

/-- C5: in simulation mode, when take-profit fires, `_execute_sale` journals
the synthetic sale and deletes the position, and the creator-cache block then
reads `held_tokens[token]` again and raises `KeyError`, caught by the outer
handler: the evaluation ends in the caught-`KeyError` state and the creator
cache is left untouched (and nothing is persisted), contradicting the claimed
insertion of the creator wallets. -/
theorem c5_creator_cache_key_error (eng : Engine) (token : String)
    (pos : Position) (price : ℚ) (orc : EvalOracles)
    (hsim : eng.simulationMode = true)
    (h : alist_lookup eng.heldTokens token = some pos)
    (hb : 0 < pos.buyPrice)
    (htp : eng.sellMultiplier ≤ price / pos.buyPrice) :
    evaluate_held_tokens_for_sale eng token price orc =
      ({ eng with
          simulationResults := eng.simulationResults ++
            [⟨token, pos.buyPrice * eng.sellMultiplier, "sell"⟩],
          heldTokens := alist_erase eng.heldTokens token },
        .tookProfit .simKeyError) ∧
      (evaluate_held_tokens_for_sale eng token price orc).1.creatorCache =
        eng.creatorCache := by
  have h0 : ¬ pos.buyPrice = 0 := fun hc => absurd hc (ne_of_gt hb)
  have he := ev_tp_sim eng token price orc pos h h0 htp hsim
  rw [execute_sale_sim eng token orc.sellResult pos h hsim] at he
  refine ⟨he, ?_⟩
  rw [he]

/-- C5 witness: the concrete simulated take-profit on token T bought at 1
with multiplier 2 at the observed price 2 ends in the caught KeyError with
the creator cache unchanged. -/
theorem c5_creator_cache_key_error_witness :
    (evaluate_held_tokens_for_sale sample_sim_engine "T" 2 orc_eval_plain).2 =
      EvalOutcome.tookProfit TPFollow.simKeyError ∧
    (evaluate_held_tokens_for_sale sample_sim_engine "T" 2 orc_eval_plain).1.creatorCache
      = [] := by
  have h := c5_creator_cache_key_error sample_sim_engine "T" ⟨1, 1/10, ["W1"], 0, none⟩ 2
    orc_eval_plain rfl (of_decide_eq_true (by with_unfolding_all rfl))
    (of_decide_eq_true (by with_unfolding_all rfl))
    (of_decide_eq_true (by with_unfolding_all rfl))
  exact ⟨by rw [h.1], h.2.trans rfl⟩

theorem eval_step_held (eng : Engine) (token : String) (price : ℚ)
    (orc : EvalOracles) (pos pos' : Position)
    (h : alist_lookup eng.heldTokens token = some pos)
    (h2 : alist_lookup (evaluate_held_tokens_for_sale eng token price orc).1.heldTokens
      token = some pos') :
    pos'.buyPrice = pos.buyPrice ∧ pos.maxSeen ≤ pos'.maxSeen ∧
      (max_inv pos → max_inv pos') := by
  have hset : alist_lookup (with_updated_max eng token pos price).heldTokens token
      = some (update_max pos price) := by
    unfold with_updated_max
    exact alist_lookup_set_self ..
  have main : alist_lookup (with_updated_max eng token pos price).heldTokens token
      = some pos' →
      pos'.buyPrice = pos.buyPrice ∧ pos.maxSeen ≤ pos'.maxSeen ∧
        (max_inv pos → max_inv pos') := by
    intro hx
    rw [hset] at hx
    injection hx with hx
    subst hx
    refine ⟨update_max_buyPrice .., ?_, ?_⟩
    · rw [update_max_maxSeen]
      exact le_max_left _ _
    · intro hi
      unfold max_inv at hi ⊢
      rw [update_max_buyPrice, update_max_maxSeen]
      exact le_trans hi (le_max_left _ _)
  by_cases h0 : pos.buyPrice = 0
  · rw [ev_zeroDiv eng token price orc pos h h0] at h2
    dsimp only at h2
    rw [h] at h2
    injection h2 with h2
    subst h2
    exact ⟨rfl, le_refl _, id⟩
  · by_cases htp : eng.sellMultiplier ≤ price / pos.buyPrice
    · cases hsim : eng.simulationMode with
      | true =>
        rw [ev_tp_sim eng token price orc pos h h0 htp hsim,
          execute_sale_sim eng token orc.sellResult pos h hsim] at h2
        dsimp only at h2
        rw [alist_lookup_erase_self] at h2
        exact absurd h2 (by simp)
      | false =>
        cases hsr : orc.sellResult with
        | some sp =>
          rw [ev_tp_real eng token price orc pos h h0 htp hsim, hsr,
            execute_sale_real_success eng token sp pos h hsim] at h2
          dsimp only at h2
          rw [alist_lookup_erase_self] at h2
          exact absurd h2 (by simp)
        | none =>
          rw [ev_tp_real eng token price orc pos h h0 htp hsim, hsr,
            execute_sale_real_fail eng token pos h hsim] at h2
          dsimp only at h2
          rw [h] at h2
          injection h2 with h2
          subst h2
          exact ⟨rfl, le_refl _, id⟩
    · by_cases htr : price < (update_max pos price).maxSeen * (1 - eng.trailingStopPercent)
      · rw [ev_trailing eng token price orc pos h h0 htp htr] at h2
        dsimp only at h2
        cases hsim : eng.simulationMode with
        | true =>
          rw [execute_sale_sim (with_updated_max eng token pos price) token
            orc.sellResult (update_max pos price) hset hsim] at h2
          dsimp only at h2
          rw [alist_lookup_erase_self] at h2
          exact absurd h2 (by simp)
        | false =>
          cases hsr : orc.sellResult with
          | some sp =>
            rw [hsr, execute_sale_real_success (with_updated_max eng token pos price)
              token sp (update_max pos price) hset hsim] at h2
            dsimp only at h2
            rw [alist_lookup_erase_self] at h2
            exact absurd h2 (by simp)
          | none =>
            rw [hsr, execute_sale_real_fail (with_updated_max eng token pos price)
              token (update_max pos price) hset hsim] at h2
            dsimp only at h2
            exact main h2
      · cases hd : (orc.whale || orc.creatorSells) with
        | true =>
          rw [ev_dump eng token price orc pos h h0 htp htr hd] at h2
          dsimp only at h2
          cases hsim : eng.simulationMode with
          | true =>
            rw [execute_sale_sim (with_updated_max eng token pos price) token
              orc.sellResult (update_max pos price) hset hsim] at h2
            dsimp only at h2
            rw [alist_lookup_erase_self] at h2
            exact absurd h2 (by simp)
          | false =>
            cases hsr : orc.sellResult with
            | some sp =>
              rw [hsr, execute_sale_real_success (with_updated_max eng token pos price)
                token sp (update_max pos price) hset hsim] at h2
              dsimp only at h2
              rw [alist_lookup_erase_self] at h2
              exact absurd h2 (by simp)
            | none =>
              rw [hsr, execute_sale_real_fail (with_updated_max eng token pos price)
                token (update_max pos price) hset hsim] at h2
              dsimp only at h2
              exact main h2
        | false =>
          rw [ev_held eng token price orc pos h h0 htp htr hd] at h2
          dsimp only at h2
          exact main h2

theorem held_trace_invariant :
    ∀ (steps : List (ℚ × EvalOracles)) (eng : Engine) (token : String)
      (pos : Position),
      alist_lookup eng.heldTokens token = some pos → max_inv pos →
      List.Chain' (fun a b => a.maxSeen ≤ b.maxSeen) (pos :: held_trace eng token steps) ∧
        ∀ q ∈ pos :: held_trace eng token steps, q.buyPrice ≤ q.maxSeen := by
  intro steps
  induction steps with
  | nil =>
    intro eng token pos h hinv
    refine ⟨List.chain'_singleton _, ?_⟩
    intro q hq
    simp only [held_trace, List.mem_singleton] at hq
    subst hq
    exact hinv
  | cons step rest ih =>
    intro eng token pos h hinv
    obtain ⟨p, orc⟩ := step
    simp only [held_trace]
    cases h2 : alist_lookup
        (evaluate_held_tokens_for_sale eng token p orc).1.heldTokens token with
    | none =>
      refine ⟨List.chain'_singleton _, ?_⟩
      intro q hq
      rw [List.mem_singleton] at hq
      subst hq
      exact hinv
    | some pos1 =>
      obtain ⟨hbp, hmax, hinv'⟩ := eval_step_held eng token p orc pos pos1 h h2
      obtain ⟨hch, hmem⟩ :=
        ih (evaluate_held_tokens_for_sale eng token p orc).1 token pos1 h2 (hinv' hinv)
      refine ⟨List.chain'_cons.mpr ⟨hmax, hch⟩, ?_⟩
      intro q hq
      rcases List.mem_cons.mp hq with hq | hq
      · subst hq
        exact hinv
      · exact hmem q hq

/-- C6: for a freshly created position (no `max_price` key yet) and any
sequence of exit evaluations, the effective running maximum `maxSeen` (the
stored `max_price`, defaulting to the buy price it is initialized to) is
non-decreasing along the trace of surviving positions, and every surviving
position satisfies `buy_price ≤ maxSeen`. -/
theorem c6_max_price_monotone (eng : Engine) (token : String) (pos : Position)
    (steps : List (ℚ × EvalOracles))
    (h : alist_lookup eng.heldTokens token = some pos)
    (hfresh : pos.maxPrice = none) :
    List.Chain' (fun a b => a.maxSeen ≤ b.maxSeen) (pos :: held_trace eng token steps) ∧
      ∀ q ∈ pos :: held_trace eng token steps, q.buyPrice ≤ q.maxSeen := by
  have hinv : max_inv pos := by
    simp [max_inv, Position.maxSeen, hfresh]
  exact held_trace_invariant steps eng token pos h hinv

/-- C6 witness: two held evaluations at prices 3/2 and 7/5 on a position
bought at 1. -/
theorem c6_max_price_monotone_witness :
    List.Chain' (fun a b => a.maxSeen ≤ b.maxSeen)
      ((⟨1, 1/10, ["W1"], 0, none⟩ : Position) ::
        held_trace sample_sim_engine "T" [(3/2, orc_eval_plain), (7/5, orc_eval_plain)]) ∧
      ∀ q ∈ (⟨1, 1/10, ["W1"], 0, none⟩ : Position) ::
          held_trace sample_sim_engine "T" [(3/2, orc_eval_plain), (7/5, orc_eval_plain)],
        q.buyPrice ≤ q.maxSeen := by
  exact c6_max_price_monotone sample_sim_engine "T" ⟨1, 1/10, ["W1"], 0, none⟩
    [(3/2, orc_eval_plain), (7/5, orc_eval_plain)]
    (of_decide_eq_true (by with_unfolding_all rfl)) rfl

theorem scan_sound :
    ∀ (l : List Instruction) (m : String), scan_instructions l = some m →
      ∃ ix ∈ l, ix.program_id = raydium_lp_v4 ∧
        bytes_start_with initialize2_discriminant ix.data_bytes = true ∧
        ((ix.accounts.getD 8 "" = sol_mint ∧ m = ix.accounts.getD 9 "") ∨
          (ix.accounts.getD 9 "" = sol_mint ∧ ¬ ix.accounts.getD 8 "" = sol_mint ∧
            m = ix.accounts.getD 8 "")) := by
  intro l
  induction l with
  | nil =>
    intro m hm
    simp [scan_instructions] at hm
  | cons ix rest ih =>
    intro m hm
    unfold scan_instructions at hm
    by_cases hmatch : ix.program_id = raydium_lp_v4 ∧
        bytes_start_with initialize2_discriminant ix.data_bytes = true
    · rw [if_pos hmatch] at hm
      by_cases hlen : ix.accounts.length < 10
      · rw [if_pos hlen] at hm
        exact absurd hm (by simp)
      · rw [if_neg hlen] at hm
        by_cases h8 : ix.accounts.getD 8 "" = sol_mint
        · rw [if_pos h8] at hm
          injection hm with hm
          exact ⟨ix, List.mem_cons_self .., hmatch.1, hmatch.2, Or.inl ⟨h8, hm.symm⟩⟩
        · rw [if_neg h8] at hm
          by_cases h9 : ix.accounts.getD 9 "" = sol_mint
          · rw [if_pos h9] at hm
            injection hm with hm
            exact ⟨ix, List.mem_cons_self .., hmatch.1, hmatch.2, Or.inr ⟨h9, h8, hm.symm⟩⟩
          · rw [if_neg h9] at hm
            exact absurd hm (by simp)
    · rw [if_neg hmatch] at hm
      obtain ⟨ix2, hmem, hrest⟩ := ih m hm
      exact ⟨ix2, List.mem_cons_of_mem _ hmem, hrest⟩

/-- C8: a log notification enqueues its signature exactly when some log line
contains the `Instruction: InitializeAccount` substring; and a mint is
forwarded only when the fetched transaction references the Raydium LP V4
program in its account keys and carries a top-level instruction of that
program whose data starts with the `initialize2` discriminant, the forwarded
mint being the one of the two mints at account offsets 8 and 9 that is not
the SOL mint. -/
theorem c8_pair_discovery :
    (∀ (n : Notification) (v : NotifValue) (s : String),
      n.method = "logsNotification" → n.value = some v → v.signature = some s →
      (handle_notification n = some s ↔
        v.logs.any (fun line => str_contains_sub line init_account_marker) = true)) ∧
    (∀ (tx : TxMessage) (m : String) (p : ℚ),
      process_new_pool tx = some (m, p) →
      raydium_lp_v4 ∈ tx.account_keys ∧
        ∃ ix ∈ tx.instructions, ix.program_id = raydium_lp_v4 ∧
          bytes_start_with initialize2_discriminant ix.data_bytes = true ∧
          ((ix.accounts.getD 8 "" = sol_mint ∧ m = ix.accounts.getD 9 "") ∨
            (ix.accounts.getD 9 "" = sol_mint ∧ ¬ ix.accounts.getD 8 "" = sol_mint ∧
              m = ix.accounts.getD 8 ""))) := by
  constructor
  · intro n v s hm hv hs
    unfold handle_notification
    rw [hv]
    dsimp only
    rw [if_pos hm]
    cases hany : v.logs.any (fun line => str_contains_sub line init_account_marker) with
    | true => simp [hany, hs]
    | false => simp [hany]
  · intro tx m p hp
    unfold process_new_pool at hp
    by_cases hk : raydium_lp_v4 ∈ tx.account_keys
    · rw [if_pos hk] at hp
      cases hscan : scan_instructions tx.instructions with
      | none =>
        rw [hscan] at hp
        exact absurd hp (by simp)
      | some m0 =>
        rw [hscan] at hp
        simp only [Option.map_some'] at hp
        injection hp with hp
        rw [Prod.mk.injEq] at hp
        obtain ⟨hm0, _⟩ := hp
        exact ⟨hk, hm0 ▸ scan_sound tx.instructions m0 hscan⟩
    · rw [if_neg hk] at hp
      exact absurd hp (by simp)

/-- C8 witness: a notification with an InitializeAccount line enqueues its
signature, and the sample transaction forwards the non-SOL mint. -/
theorem c8_pair_discovery_witness :
    handle_notification sample_notification = some "SIG1" ∧
      (raydium_lp_v4 ∈ sample_tx.account_keys ∧
        ∃ ix ∈ sample_tx.instructions, ix.program_id = raydium_lp_v4 ∧
          bytes_start_with initialize2_discriminant ix.data_bytes = true ∧
          ((ix.accounts.getD 8 "" = sol_mint ∧ "NEWMINT" = ix.accounts.getD 9 "") ∨
            (ix.accounts.getD 9 "" = sol_mint ∧ ¬ ix.accounts.getD 8 "" = sol_mint ∧
              "NEWMINT" = ix.accounts.getD 8 ""))) := by
  refine ⟨?_, c8_pair_discovery.2 sample_tx "NEWMINT" 0
    (of_decide_eq_true (by with_unfolding_all rfl))⟩
  exact (c8_pair_discovery.1 sample_notification
    ⟨some "SIG1", ["Program log: Instruction: InitializeAccount"]⟩ "SIG1"
    rfl rfl rfl).mpr (by decide)

/-- C9: the pair scanner always forwards candidates at price 0; the simulated
buy then stores a position with buy price 0; every exit evaluation of such a
position ends in the caught ZeroDivisionError with the engine unchanged, so
no exit rule is evaluated and the position survives every price sequence
unsold. -/
theorem c9_zero_price_positions_never_sold :
    (∀ (tx : TxMessage) (m : String) (p : ℚ),
      process_new_pool tx = some (m, p) → p = 0) ∧
    (∀ (eng : Engine) (token : String) (orc : BuyOracles),
      eng.simulationMode = true →
      alist_lookup (process_new_token_candidate eng token 0 orc).1.heldTokens token =
        some ⟨0, eng.buyAmountSol, [], orc.now, none⟩) ∧
    (∀ (eng : Engine) (token : String) (pos : Position) (price : ℚ) (orc : EvalOracles),
      alist_lookup eng.heldTokens token = some pos → pos.buyPrice = 0 →
      evaluate_held_tokens_for_sale eng token price orc = (eng, .zeroDivCaught)) ∧
    (∀ (eng : Engine) (token : String) (pos : Position)
      (steps : List (ℚ × EvalOracles)),
      alist_lookup eng.heldTokens token = some pos → pos.buyPrice = 0 →
      run_sell_evals eng token steps = eng) := by
  refine ⟨?_, ?_, ?_, ?_⟩
  · intro tx m p hp
    unfold process_new_pool at hp
    by_cases hk : raydium_lp_v4 ∈ tx.account_keys
    · rw [if_pos hk] at hp
      cases hscan : scan_instructions tx.instructions with
      | none =>
        rw [hscan] at hp
        exact absurd hp (by simp)
      | some m0 =>
        rw [hscan] at hp
        simp only [Option.map_some'] at hp
        injection hp with hp
        rw [Prod.mk.injEq] at hp
        exact hp.2.symm
    · rw [if_neg hk] at hp
      exact absurd hp (by simp)
  · intro eng token orc hsim
    unfold process_new_token_candidate
    rw [buy_decision_sim eng token orc hsim]
    dsimp only
    unfold sim_buy_engine
    dsimp only
    exact alist_lookup_set_self ..
  · intro eng token pos price orc h h0
    exact ev_zeroDiv eng token price orc pos h h0
  · intro eng token pos steps h h0
    induction steps with
    | nil => rfl
    | cons s rest ih =>
      obtain ⟨p, orc⟩ := s
      simp only [run_sell_evals]
      rw [ev_zeroDiv eng token p orc pos h h0]
      exact ih

/-- C9 witness: a simulated buy at price 0 stores a zero-price position, and
two exit evaluations at prices 5 and 100 leave the engine untouched. -/
theorem c9_zero_price_positions_never_sold_witness :
    (0 : ℚ) = 0 ∧
    alist_lookup (process_new_token_candidate sample_sim_engine_empty "M" 0
        orc_all_clear).1.heldTokens "M" =
      some ⟨0, sample_sim_engine_empty.buyAmountSol, [], orc_all_clear.now, none⟩ ∧
    run_sell_evals sample_zero_pos_engine "M"
        [(5, orc_eval_plain), (100, orc_eval_plain)] =
      sample_zero_pos_engine := by
  refine ⟨c9_zero_price_positions_never_sold.1 sample_tx "NEWMINT" 0
      (of_decide_eq_true (by with_unfolding_all rfl)),
    c9_zero_price_positions_never_sold.2.1 sample_sim_engine_empty "M" orc_all_clear rfl,
    c9_zero_price_positions_never_sold.2.2.2 sample_zero_pos_engine "M"
      ⟨0, 1/10, [], 0, none⟩ [(5, orc_eval_plain), (100, orc_eval_plain)]
      (of_decide_eq_true (by with_unfolding_all rfl)) rfl⟩

/-- C10: in simulation mode every sale, regardless of the rule that triggered
it (take-profit, trailing stop or dump signal), is journaled at the synthetic
price `buy_price * sell_multiplier`, never at the observed market price; held
and error outcomes journal nothing; and with `sell_multiplier ≥ 1` the
journaled price is at least the buy price, so the trade is recorded as a win. -/
theorem c10_sim_sell_synthetic_price (eng : Engine) (token : String)
    (pos : Position) (price : ℚ) (orc : EvalOracles)
    (hsim : eng.simulationMode = true)
    (h : alist_lookup eng.heldTokens token = some pos) :
    (((evaluate_held_tokens_for_sale eng token price orc).2 = .trailingStopped ∨
      (evaluate_held_tokens_for_sale eng token price orc).2 = .dumpSold ∨
      (∃ f, (evaluate_held_tokens_for_sale eng token price orc).2 = .tookProfit f)) →
      (evaluate_held_tokens_for_sale eng token price orc).1.simulationResults =
        eng.simulationResults ++ [⟨token, pos.buyPrice * eng.sellMultiplier, "sell"⟩]) ∧
    (((evaluate_held_tokens_for_sale eng token price orc).2 = .held ∨
      (evaluate_held_tokens_for_sale eng token price orc).2 = .zeroDivCaught) →
      (evaluate_held_tokens_for_sale eng token price orc).1.simulationResults =
        eng.simulationResults) ∧
    (1 ≤ eng.sellMultiplier → 0 ≤ pos.buyPrice →
      pos.buyPrice ≤ pos.buyPrice * eng.sellMultiplier) := by
  have third : 1 ≤ eng.sellMultiplier → 0 ≤ pos.buyPrice →
      pos.buyPrice ≤ pos.buyPrice * eng.sellMultiplier :=
    fun hs hb => le_mul_of_one_le_right hb hs
  have hset : alist_lookup (with_updated_max eng token pos price).heldTokens token
      = some (update_max pos price) := by
    unfold with_updated_max
    exact alist_lookup_set_self ..
  by_cases h0 : pos.buyPrice = 0
  · rw [ev_zeroDiv eng token price orc pos h h0]
    refine ⟨?_, fun _ => rfl, third⟩
    rintro (hc | hc | ⟨f, hc⟩) <;> simp at hc
  · by_cases htp : eng.sellMultiplier ≤ price / pos.buyPrice
    · rw [ev_tp_sim eng token price orc pos h h0 htp hsim,
        execute_sale_sim eng token orc.sellResult pos h hsim]
      refine ⟨fun _ => rfl, ?_, third⟩
      rintro (hc | hc) <;> simp at hc
    · by_cases htr : price < (update_max pos price).maxSeen * (1 - eng.trailingStopPercent)
      · rw [ev_trailing eng token price orc pos h h0 htp htr,
          execute_sale_sim (with_updated_max eng token pos price) token orc.sellResult
            (update_max pos price) hset hsim]
        refine ⟨fun _ => ?_, ?_, third⟩
        · dsimp only [with_updated_max]
          rw [update_max_buyPrice]
        · rintro (hc | hc) <;> simp at hc
      · cases hd : (orc.whale || orc.creatorSells) with
        | true =>
          rw [ev_dump eng token price orc pos h h0 htp htr hd,
            execute_sale_sim (with_updated_max eng token pos price) token orc.sellResult
              (update_max pos price) hset hsim]
          refine ⟨fun _ => ?_, ?_, third⟩
          · dsimp only [with_updated_max]
            rw [update_max_buyPrice]
          · rintro (hc | hc) <;> simp at hc
        | false =>
          rw [ev_held eng token price orc pos h h0 htp htr hd]
          refine ⟨?_, fun _ => rfl, third⟩
          rintro (hc | hc | ⟨f, hc⟩) <;> simp at hc

/-- C10 witness: a simulated trailing-stop exit at the observed price 3/2 on
a position bought at 1 with multiplier 2 is journaled at the synthetic price
2, not at 3/2. -/
theorem c10_sim_sell_synthetic_price_witness :
    (evaluate_held_tokens_for_sale sample_sim_engine_max2 "T" (3/2) orc_eval_plain).2 =
      EvalOutcome.trailingStopped ∧
    (evaluate_held_tokens_for_sale sample_sim_engine_max2 "T" (3/2)
        orc_eval_plain).1.simulationResults =
      sample_sim_engine_max2.simulationResults ++ [⟨"T", (1 : ℚ) * 2, "sell"⟩] := by
  have h := c10_sim_sell_synthetic_price sample_sim_engine_max2 "T"
    ⟨1, 1/10, ["W1"], 0, some 2⟩ (3/2) orc_eval_plain rfl
    (of_decide_eq_true (by with_unfolding_all rfl))
  have hout : (evaluate_held_tokens_for_sale sample_sim_engine_max2 "T" (3/2)
      orc_eval_plain).2 = EvalOutcome.trailingStopped :=
    of_decide_eq_true (by with_unfolding_all rfl)
  exact ⟨hout, h.1 (Or.inl hout)⟩

end SolanaBot
